import Mathlib

/-!
Verification of the CCTV-Guardian structured-logging subsystem
(`src/utils/logger.py`) against its natural-language specification.

Strings are embedded as lists of characters (`Str`), Python dictionaries as
association lists with Python-dict insertion/update semantics (`alSet`,
`alDel`, `alUpdate`), and JSON values as the inductive `JVal`.  A Python
object that `json.dumps` cannot serialize is represented by `JVal.vbad`.
-/

/-- Python strings, embedded as lists of characters. -/
abbrev Str := List Char

/-- JSON-serializable (or non-serializable, `vbad`) Python values appearing in
log records.  `vrat` embeds Python floats as rational numbers. -/
inductive JVal where
  | vstr (s : Str)
  | vint (n : Int)
  | vrat (q : ℚ)
  | vbool (b : Bool)
  | vnull
  | vbad
deriving DecidableEq

/-- A Python dictionary with `Str` keys, as an association list in insertion
order.  Well-formed Python dictionaries have `Nodup` keys. -/
abbrev PyDict := List (Str × JVal)

section AssocList

variable {α : Type}

/-- Python `d[k]` / `d.get(k)`: lookup of the (unique) binding for `k`. -/
def alGet : List (Str × α) → Str → Option α
  | [], _ => none
  | (k', v) :: d, k => if k' = k then some v else alGet d k

/-- Python `d.get(k, dflt)`. -/
def alGetD (d : List (Str × α)) (k : Str) (dflt : α) : α :=
  (alGet d k).getD dflt

/-- Python `d[k] = v`: update in place if `k` is present, else append. -/
def alSet : List (Str × α) → Str → α → List (Str × α)
  | [], k, v => [(k, v)]
  | (k', v') :: d, k, v =>
    if k' = k then (k, v) :: d else (k', v') :: alSet d k v

/-- Python `del d[k]` (on a dict with unique keys): drop the binding of `k`. -/
def alDel : List (Str × α) → Str → List (Str × α)
  | [], _ => []
  | (k', v') :: d, k => if k' = k then d else (k', v') :: alDel d k

/-- Python `d.update(e)`, and also the dict display `\x7b**d, **e\x7d`:
fold `alSet` over the entries of `e` in order. -/
def alUpdate (d e : List (Str × α)) : List (Str × α) :=
  e.foldl (fun acc p => alSet acc p.1 p.2) d

/-- The keys of a dictionary, in insertion order. -/
def alKeys (d : List (Str × α)) : List Str :=
  d.map Prod.fst

@[simp] theorem alKeys_nil : alKeys ([] : List (Str × α)) = [] := rfl

@[simp] theorem alKeys_cons (k : Str) (v : α) (d : List (Str × α)) :
    alKeys ((k, v) :: d) = k :: alKeys d := rfl

@[simp] theorem alGet_nil (k : Str) : alGet ([] : List (Str × α)) k = none := rfl

theorem alGet_cons (k' : Str) (v : α) (d : List (Str × α)) (k : Str) :
    alGet ((k', v) :: d) k = if k' = k then some v else alGet d k := rfl

theorem alSet_cons (k' : Str) (v' : α) (d : List (Str × α)) (k : Str) (v : α) :
    alSet ((k', v') :: d) k v =
      if k' = k then (k, v) :: d else (k', v') :: alSet d k v := rfl

theorem alDel_cons (k' : Str) (v' : α) (d : List (Str × α)) (k : Str) :
    alDel ((k', v') :: d) k = if k' = k then d else (k', v') :: alDel d k := rfl

@[simp] theorem alUpdate_nil (d : List (Str × α)) : alUpdate d [] = d := rfl

@[simp] theorem alUpdate_cons (d : List (Str × α)) (k : Str) (v : α)
    (e : List (Str × α)) : alUpdate d ((k, v) :: e) = alUpdate (alSet d k v) e := rfl

theorem alGet_alSet_self (d : List (Str × α)) (k : Str) (v : α) :
    alGet (alSet d k v) k = some v := by
  induction d with
  | nil => simp [alSet, alGet]
  | cons p d ih =>
    obtain ⟨k', v'⟩ := p
    by_cases h : k' = k
    · simp [alSet_cons, h, alGet_cons]
    · simp [alSet_cons, h, alGet_cons, ih]

theorem alGet_alSet_ne (d : List (Str × α)) (k k' : Str) (v : α) (h : k' ≠ k) :
    alGet (alSet d k' v) k = alGet d k := by
  induction d with
  | nil => simp [alSet, alGet_cons, h]
  | cons p d ih =>
    obtain ⟨k'', v''⟩ := p
    by_cases h2 : k'' = k'
    · subst h2
      simp [alSet_cons, alGet_cons, h, fun he : k'' = k => h (he ▸ rfl)]
    · rw [alSet_cons, if_neg h2, alGet_cons, alGet_cons, ih]

theorem mem_alKeys_alSet (d : List (Str × α)) (k k' : Str) (v : α) :
    k' ∈ alKeys (alSet d k v) ↔ k' = k ∨ k' ∈ alKeys d := by
  induction d with
  | nil => simp [alSet]
  | cons p d ih =>
    obtain ⟨k'', v''⟩ := p
    by_cases h : k'' = k
    · subst h
      rw [alSet_cons, if_pos rfl, alKeys_cons, alKeys_cons]
      simp only [List.mem_cons]
      tauto
    · rw [alSet_cons, if_neg h, alKeys_cons, alKeys_cons]
      simp only [List.mem_cons, ih]
      tauto

theorem alKeys_alSet (d : List (Str × α)) (k : Str) (v : α) :
    alKeys (alSet d k v) =
      if k ∈ alKeys d then alKeys d else alKeys d ++ [k] := by
  induction d with
  | nil => simp [alSet]
  | cons p d ih =>
    obtain ⟨k'', v''⟩ := p
    by_cases h : k'' = k
    · subst h
      simp [alSet_cons]
    · rw [alSet_cons, if_neg h]
      have hne : ¬ k = k'' := fun he => h he.symm
      by_cases hmem : k ∈ alKeys d
      · simp [alKeys_cons, ih, hmem, hne]
      · simp [alKeys_cons, ih, hmem, hne]

theorem nodup_alKeys_alSet (d : List (Str × α)) (k : Str) (v : α)
    (h : (alKeys d).Nodup) : (alKeys (alSet d k v)).Nodup := by
  rw [alKeys_alSet]
  by_cases hmem : k ∈ alKeys d
  · simpa [hmem] using h
  · simp [hmem, List.nodup_append, h]

theorem mem_alKeys_alUpdate (d e : List (Str × α)) (k : Str) :
    k ∈ alKeys (alUpdate d e) ↔ k ∈ alKeys d ∨ k ∈ alKeys e := by
  induction e generalizing d with
  | nil => simp
  | cons p e ih =>
    obtain ⟨k', v'⟩ := p
    rw [alUpdate_cons, ih, mem_alKeys_alSet]
    simp only [alKeys_cons, List.mem_cons]
    tauto

theorem alGet_alUpdate_not_mem (d e : List (Str × α)) (k : Str)
    (h : k ∉ alKeys e) : alGet (alUpdate d e) k = alGet d k := by
  induction e generalizing d with
  | nil => rfl
  | cons p e ih =>
    obtain ⟨k', v'⟩ := p
    simp only [alKeys_cons, List.mem_cons] at h
    push_neg at h
    rw [alUpdate_cons, ih _ h.2, alGet_alSet_ne _ _ _ _ (Ne.symm h.1)]

theorem alGet_alUpdate_mem (d e : List (Str × α)) (k : Str)
    (hnd : (alKeys e).Nodup) (h : k ∈ alKeys e) :
    alGet (alUpdate d e) k = alGet e k := by
  induction e generalizing d with
  | nil => simp at h
  | cons p e ih =>
    obtain ⟨k', v'⟩ := p
    simp only [alKeys_cons, List.nodup_cons] at hnd
    rw [alUpdate_cons, alGet_cons]
    by_cases hk : k' = k
    · subst hk
      rw [if_pos rfl, alGet_alUpdate_not_mem _ _ _ hnd.1, alGet_alSet_self]
    · rw [if_neg hk]
      simp only [alKeys_cons, List.mem_cons] at h
      rcases h with h | h
      · exact absurd h.symm hk
      · exact ih _ hnd.2 h

theorem nodup_alKeys_alUpdate (d e : List (Str × α))
    (h : (alKeys d).Nodup) : (alKeys (alUpdate d e)).Nodup := by
  induction e generalizing d with
  | nil => exact h
  | cons p e ih =>
    obtain ⟨k', v'⟩ := p
    exact ih _ (nodup_alKeys_alSet _ _ _ h)

theorem alGet_mem (d : List (Str × α)) (k : Str) (v : α)
    (h : alGet d k = some v) : (k, v) ∈ d := by
  induction d with
  | nil => simp [alGet] at h
  | cons p d ih =>
    obtain ⟨k', v'⟩ := p
    rw [alGet_cons] at h
    by_cases hk : k' = k
    · subst hk
      rw [if_pos rfl, Option.some.injEq] at h
      subst h
      exact List.mem_cons_self _ _
    · rw [if_neg hk] at h
      exact List.mem_cons_of_mem _ (ih h)

theorem alGet_eq_of_mem (d : List (Str × α)) (k : Str) (v : α)
    (hnd : (alKeys d).Nodup) (h : (k, v) ∈ d) : alGet d k = some v := by
  induction d with
  | nil => simp at h
  | cons p d ih =>
    obtain ⟨k', v'⟩ := p
    simp only [alKeys_cons, List.nodup_cons] at hnd
    rcases List.mem_cons.1 h with h | h
    · obtain ⟨rfl, rfl⟩ := Prod.mk.inj h.symm
      simp [alGet_cons]
    · have hk : k' ≠ k := by
        rintro rfl
        exact hnd.1 (List.mem_map.2 ⟨(k', v), h, rfl⟩)
      rw [alGet_cons, if_neg hk]
      exact ih hnd.2 h

theorem mem_alKeys_iff_isSome (d : List (Str × α)) (k : Str) :
    k ∈ alKeys d ↔ (alGet d k).isSome := by
  induction d with
  | nil => simp
  | cons p d ih =>
    obtain ⟨k', v'⟩ := p
    rw [alKeys_cons, alGet_cons, List.mem_cons]
    by_cases hk : k' = k
    · subst hk
      simp
    · have hk2 : ¬ k = k' := fun he => hk he.symm
      rw [if_neg hk]
      simp [ih, hk2]

theorem alGet_alDel_ne (d : List (Str × α)) (k k' : Str) (h : k ≠ k') :
    alGet (alDel d k') k = alGet d k := by
  induction d with
  | nil => rfl
  | cons p d ih =>
    obtain ⟨k'', v''⟩ := p
    rw [alDel_cons]
    by_cases h2 : k'' = k'
    · subst h2
      rw [if_pos rfl, alGet_cons, if_neg (Ne.symm h)]
    · rw [if_neg h2, alGet_cons, alGet_cons, ih]

theorem mem_alKeys_alDel_ne (d : List (Str × α)) (k k' : Str) (h : k ≠ k') :
    k ∈ alKeys (alDel d k') ↔ k ∈ alKeys d := by
  rw [mem_alKeys_iff_isSome, mem_alKeys_iff_isSome, alGet_alDel_ne _ _ _ h]

theorem not_mem_alKeys_alDel_self (d : List (Str × α)) (k : Str)
    (hnd : (alKeys d).Nodup) : k ∉ alKeys (alDel d k) := by
  induction d with
  | nil => simp [alDel]
  | cons p d ih =>
    obtain ⟨k', v'⟩ := p
    simp only [alKeys_cons, List.nodup_cons] at hnd
    rw [alDel_cons]
    by_cases hk : k' = k
    · subst hk
      rw [if_pos rfl]
      exact hnd.1
    · rw [if_neg hk, alKeys_cons, List.mem_cons]
      rintro (h | h)
      · exact hk h.symm
      · exact ih hnd.2 h

theorem nodup_alKeys_alDel (d : List (Str × α)) (k : Str)
    (hnd : (alKeys d).Nodup) : (alKeys (alDel d k)).Nodup := by
  induction d with
  | nil => simp [alDel]
  | cons p d ih =>
    obtain ⟨k', v'⟩ := p
    simp only [alKeys_cons, List.nodup_cons] at hnd
    rw [alDel_cons]
    by_cases hk : k' = k
    · subst hk
      rw [if_pos rfl]
      exact hnd.2
    · rw [if_neg hk, alKeys_cons, List.nodup_cons]
      refine ⟨fun hmem => hnd.1 ?_, ih hnd.2⟩
      exact (mem_alKeys_alDel_ne d k' k hk).1 hmem

end AssocList

/-! ### The IP masker (`CCTVLogger._mask_ip`, lines 54-59) -/

/-- Python `ip.split(".")`: split at every dot, keeping empty segments
(`"".split(".") == [""]`). -/
def splitDot : Str → List Str
  | [] => [[]]
  | c :: cs =>
    if c = '.' then [] :: splitDot cs
    else
      match splitDot cs with
      | [] => [[c]]
      | h :: t => (c :: h) :: t

/-- `CCTVLogger._mask_ip`: if the input splits into exactly 4 dot-separated
segments, rebuild the first three with the literal suffix `".xxx"`; otherwise
return `"unknown"`. -/
def mask_ip (ip : Str) : Str :=
  match splitDot ip with
  | [p0, p1, p2, _] => p0 ++ '.' :: p1 ++ '.' :: p2 ++ ".xxx".toList
  | _ => "unknown".toList

theorem splitDot_ne_nil (s : Str) : splitDot s ≠ [] := by
  cases s with
  | nil => simp [splitDot]
  | cons c cs =>
    simp only [splitDot]
    by_cases h : c = '.'
    · simp [h]
    · simp only [if_neg h]
      cases splitDot cs <;> simp

theorem splitDot_no_dot (s : Str) (h : '.' ∉ s) : splitDot s = [s] := by
  induction s with
  | nil => rfl
  | cons c cs ih =>
    simp only [List.mem_cons] at h
    push_neg at h
    have hc : ¬ c = '.' := fun he => h.1 he.symm
    simp only [splitDot, if_neg hc, ih h.2]

theorem splitDot_append_dot (a r : Str) (h : '.' ∉ a) :
    splitDot (a ++ '.' :: r) = a :: splitDot r := by
  induction a with
  | nil => simp [splitDot]
  | cons c cs ih =>
    simp only [List.mem_cons] at h
    push_neg at h
    have hc : ¬ c = '.' := fun he => h.1 he.symm
    have ih2 := ih h.2
    show splitDot (c :: (cs ++ '.' :: r)) = _
    rw [splitDot, if_neg hc, ih2]

example : mask_ip "192.168.1.100".toList = "192.168.1.xxx".toList := by decide
example : mask_ip "hello".toList = "unknown".toList := by decide
example : mask_ip "1.2.3.".toList = "1.2.3.xxx".toList := by decide

/-! ### Decimal and JSON serialization (`json.dumps(log_entry, ensure_ascii=False)`) -/

/-- Decimal digit character. -/
def digitChar (n : Nat) : Char :=
  match n with
  | 0 => '0' | 1 => '1' | 2 => '2' | 3 => '3' | 4 => '4'
  | 5 => '5' | 6 => '6' | 7 => '7' | 8 => '8' | _ => '9'

/-- Decimal digits of `n`, most significant first (fuelled recursion). -/
def natDigits : Nat → Nat → Str
  | 0, _ => []
  | fuel + 1, n =>
    if n < 10 then [digitChar n]
    else natDigits fuel (n / 10) ++ [digitChar (n % 10)]

/-- `str(n)` for a natural number. -/
def natRepr (n : Nat) : Str := natDigits (n + 1) n

/-- `str(i)` for an integer. -/
def intRepr (i : Int) : Str :=
  if i < 0 then '-' :: natRepr i.natAbs else natRepr i.natAbs

/-- Digits of the fractional expansion of `r / den` (fuelled; stops at
remainder zero). -/
def fracDigits : Nat → Nat → Nat → Str
  | 0, _, _ => []
  | _ + 1, 0, _ => []
  | fuel + 1, r + 1, den =>
    digitChar (((r + 1) * 10) / den) :: fracDigits fuel (((r + 1) * 10) % den) den

/-- Decimal representation of a rational, standing in for CPython's
`float.__repr__` (digits, an optional sign and one dot; exact on the
terminating decimals produced by `round(x, 2)`). -/
def decRepr (q : ℚ) : Str :=
  let sign : Str := if q < 0 then ['-'] else []
  let a := q.num.natAbs
  let b := q.den
  sign ++ natRepr (a / b) ++
    (if a % b = 0 then ".0".toList else '.' :: fracDigits 17 (a % b) b)

/-- Hexadecimal digit character. -/
def hexDigitChar (n : Nat) : Char :=
  match n with
  | 0 => '0' | 1 => '1' | 2 => '2' | 3 => '3' | 4 => '4'
  | 5 => '5' | 6 => '6' | 7 => '7' | 8 => '8' | 9 => '9'
  | 10 => 'a' | 11 => 'b' | 12 => 'c' | 13 => 'd' | 14 => 'e' | _ => 'f'

/-- JSON string escaping of one character, as `json.dumps` with
`ensure_ascii=False`: only the two-character escapes and control characters
are escaped; everything else (including non-ASCII) is kept literally. -/
def escChar (c : Char) : Str :=
  if c = '"' then ['\\', '"']
  else if c = '\\' then ['\\', '\\']
  else if c = '\n' then ['\\', 'n']
  else if c = '\r' then ['\\', 'r']
  else if c = '\t' then ['\\', 't']
  else if c.toNat = 8 then ['\\', 'b']
  else if c.toNat = 12 then ['\\', 'f']
  else if c.toNat < 32 then
    ['\\', 'u', '0', '0', hexDigitChar (c.toNat / 16), hexDigitChar (c.toNat % 16)]
  else [c]

/-- Escape every character of a string. -/
def escList : Str → Str
  | [] => []
  | c :: cs => escChar c ++ escList cs

/-- A JSON string literal: escaped content surrounded by double quotes. -/
def escStr (s : Str) : Str := '"' :: (escList s ++ ['"'])

/-- Serialization of one value; `none` models the `TypeError` raised by
`json.dumps` on a non-serializable object. -/
def jdumpVal : JVal → Option Str
  | .vstr s => some (escStr s)
  | .vint n => some (intRepr n)
  | .vrat q => some (decRepr q)
  | .vbool true => some "true".toList
  | .vbool false => some "false".toList
  | .vnull => some "null".toList
  | .vbad => none

/-- `json.dumps` default item separator `", "`. -/
def commaSep : Str := [',', ' ']

/-- `json.dumps` default key separator `": "`. -/
def colonSep : Str := [':', ' ']

/-- Serialized `"key": value` entries of a dict, failing if any value fails. -/
def entriesOpt : PyDict → Option (List Str)
  | [] => some []
  | (k, v) :: d =>
    (jdumpVal v).bind fun s =>
      (entriesOpt d).map fun rest => (escStr k ++ colonSep ++ s) :: rest

/-- `", ".join`-style interleaving of the serialized entries. -/
def joinComma : List Str → Str
  | [] => []
  | [x] => x
  | x :: y :: xs => x ++ commaSep ++ joinComma (y :: xs)

/-- `json.dumps(d, ensure_ascii=False)` on a flat dict: the entries joined
inside braces, or `none` if a value is not serializable. -/
def jdumps (d : PyDict) : Option Str :=
  (entriesOpt d).map (fun es => Char.ofNat 123 :: (joinComma es ++ [Char.ofNat 125]))

/-! ### Key and level constants of `logger.py` -/

def kTimestamp : Str := "timestamp".toList
def kLevel : Str := "level".toList
def kMessage : Str := "message".toList
def kCategory : Str := "category".toList
def kEventType : Str := "event_type".toList
def kSrcIp : Str := "src_ip".toList
def kDstIp : Str := "dst_ip".toList
def kPort : Str := "port".toList
def kProtocol : Str := "protocol".toList
def kMethod : Str := "method".toList
def kEndpoint : Str := "endpoint".toList
def kStatusCode : Str := "status_code".toList
def kResponseTimeMs : Str := "response_time_ms".toList
def kSrcIpMasked : Str := "src_ip_masked".toList
def kThreatType : Str := "threat_type".toList
def kINFO : Str := "INFO".toList
def kWARNING : Str := "WARNING".toList

/-! ### The record formatter (`JsonFormatter.format`, lines 12-22) -/

/-- The dict built by `JsonFormatter.format`: the three fixed keys, then
`log_entry.update(record.extra_data)` — entries of `extra` override fixed
keys on collision. `ts` is the emission-time timestamp string. -/
def formatEntry (ts level msg : Str) (extra : PyDict) : PyDict :=
  alUpdate [(kTimestamp, JVal.vstr ts), (kLevel, JVal.vstr level),
            (kMessage, JVal.vstr msg)] extra

/-- Python `str()` of a value, used by the f-string building threat messages. -/
def pyStr : JVal → Str
  | .vstr s => s
  | .vint n => intRepr n
  | .vrat q => decRepr q
  | .vbool true => "True".toList
  | .vbool false => "False".toList
  | .vnull => "None".toList
  | .vbad => "<unserializable object>".toList

/-! ### Python `round(x, 2)` on exact rational values -/

/-- The integer nearest to `n / d` (for `d > 0`), ties to even: the scaled
core of Python's `round`.  `f` is the floor of `n / d` and `r` the
remainder; the fractional part `r / d` is compared with `1/2` by comparing
`2 * r` with `d`. -/
def roundHalfEvenInt (n d : Int) : Int :=
  let f := Int.fdiv n d
  let r := n - f * d
  if 2 * r < d then f
  else if d < 2 * r then f + 1
  else if f % 2 = 0 then f else f + 1

/-- `round(x, 2)`: round-half-even at two decimal places, computed on the
exact rational value `x` (the model of the Python float). -/
def pyRound2 (x : ℚ) : ℚ :=
  mkRat (roundHalfEvenInt (x.num * 100) (x.den : Int)) 100

/-! ### The Event Logger Facade (`CCTVLogger`, lines 46-114) -/

/-- Handler emission: append the serialized line to the channel file, or — when
serialization raises — drop the record (`logging.Handler.emit` catches the
exception and `handleError` only prints a traceback to stderr; nothing is
appended to the log file). -/
def emitAppend (file : List Str) (lineOpt : Option Str) : List Str :=
  match lineOpt with
  | some l => file ++ [l]
  | none => file

/-- The `extra_data` dict of `log_network_event` (lines 64-72): the six fixed
entries followed by `**kwargs` (later entries override on collision). -/
def network_extra (event_type src_ip dst_ip : Str) (port : Int)
    (protocol : Str) (kwargs : PyDict) : PyDict :=
  alUpdate [(kCategory, JVal.vstr "network".toList),
            (kEventType, JVal.vstr event_type),
            (kSrcIp, JVal.vstr (mask_ip src_ip)),
            (kDstIp, JVal.vstr (mask_ip dst_ip)),
            (kPort, JVal.vint port),
            (kProtocol, JVal.vstr protocol)] kwargs

/-- `CCTVLogger.log_network_event` (lines 61-79): the record dict handed to the
formatter, with the emission timestamp `ts`. -/
def log_network_event (event_type src_ip dst_ip : Str) (port : Int)
    (protocol : Str) (kwargs : PyDict) (ts : Str) : PyDict :=
  formatEntry ts kINFO ("NETWORK: ".toList ++ event_type)
    (network_extra event_type src_ip dst_ip port protocol kwargs)

/-- One `log_network_event` call observed at the `events` channel file: the
formatted line is appended, or the record is dropped if serialization fails. -/
def log_network_event_emit (file : List Str) (event_type src_ip dst_ip : Str)
    (port : Int) (protocol : Str) (kwargs : PyDict) (ts : Str) : List Str :=
  emitAppend file (jdumps (log_network_event event_type src_ip dst_ip port protocol kwargs ts))

/-- The `extra_data` dict of `log_api_request` (lines 84-92): the six fixed
entries followed by `**kwargs` (later entries override on collision). -/
def api_extra (method endpoint src_ip : Str) (status_code : Int)
    (response_time_ms : ℚ) (kwargs : PyDict) : PyDict :=
  alUpdate [(kCategory, JVal.vstr "api".toList),
            (kMethod, JVal.vstr method),
            (kEndpoint, JVal.vstr endpoint),
            (kSrcIp, JVal.vstr (mask_ip src_ip)),
            (kStatusCode, JVal.vint status_code),
            (kResponseTimeMs, JVal.vrat (pyRound2 response_time_ms))] kwargs

/-- `CCTVLogger.log_api_request` (lines 81-99): the record dict handed to the
formatter, with the emission timestamp `ts`. -/
def log_api_request (method endpoint src_ip : Str) (status_code : Int)
    (response_time_ms : ℚ) (kwargs : PyDict) (ts : Str) : PyDict :=
  formatEntry ts kINFO ("API: ".toList ++ method ++ ' ' :: endpoint)
    (api_extra method endpoint src_ip status_code response_time_ms kwargs)

/-- `threat_data = \x7b"category": category, **threat\x7d` (line 103): the
caller-supplied category first, then the threat entries, which override the
`category` entry if the threat mapping itself has a `category` key. -/
def threat_data_of (category : Str) (threat : PyDict) : PyDict :=
  alUpdate [(kCategory, JVal.vstr category)] threat

/-- The message `f"THREAT: \x7bthreat.get('threat_type', 'UNKNOWN')\x7d"`
(line 111), built from the original `threat` mapping. -/
def threat_msg (threat : PyDict) : Str :=
  "THREAT: ".toList ++ pyStr (alGetD threat kThreatType (JVal.vstr "UNKNOWN".toList))

/-- `CCTVLogger.log_threat` (lines 101-114): builds
`threat_data = \x7b"category": category, **threat\x7d`, replaces `src_ip` by
`src_ip_masked`, and hands the dict to the formatter.  `none` models the
`AttributeError` raised by `_mask_ip` when the `src_ip` value is not a
string (nothing is persisted in that case). -/
def log_threat (category : Str) (threat : PyDict) (ts : Str) : Option PyDict :=
  match alGet (threat_data_of category threat) kSrcIp with
  | none => some (formatEntry ts kWARNING (threat_msg threat) (threat_data_of category threat))
  | some (JVal.vstr s) =>
      some (formatEntry ts kWARNING (threat_msg threat)
        (alDel (alSet (threat_data_of category threat) kSrcIpMasked
          (JVal.vstr (mask_ip s))) kSrcIp))
  | some _ => none

example :
    alGet (log_api_request "POST".toList "/api/login".toList "192.168.1.50".toList
      200 (mkRat 45333 1000) [("username".toList, JVal.vstr "admin".toList)]
      "t".toList) kResponseTimeMs = some (JVal.vrat (mkRat 4533 100)) := by decide

example :
    log_threat "network".toList
      [(kThreatType, JVal.vstr "PORT_SCAN".toList), (kSrcIp, JVal.vstr "10.0.0.5".toList)]
      "t".toList =
    some [(kTimestamp, JVal.vstr "t".toList), (kLevel, JVal.vstr kWARNING),
          (kMessage, JVal.vstr "THREAT: PORT_SCAN".toList),
          (kCategory, JVal.vstr "network".toList),
          (kThreatType, JVal.vstr "PORT_SCAN".toList),
          (kSrcIpMasked, JVal.vstr "10.0.0.xxx".toList)] := by decide

/-! ### Serialized lines contain no newline character -/

theorem digitChar_ne_nl (n : Nat) : digitChar n ≠ '\n' := by
  unfold digitChar
  split <;> decide

theorem hexDigitChar_ne_nl (n : Nat) : hexDigitChar n ≠ '\n' := by
  unfold hexDigitChar
  split <;> decide

theorem nl_not_mem_natDigits (fuel n : Nat) : '\n' ∉ natDigits fuel n := by
  induction fuel generalizing n with
  | zero => simp [natDigits]
  | succ fuel ih =>
    simp only [natDigits]
    by_cases h : n < 10
    · simp only [if_pos h, List.mem_singleton]
      exact fun he => digitChar_ne_nl n he.symm
    · simp only [if_neg h, List.mem_append, List.mem_singleton]
      rintro (hm | hm)
      · exact ih _ hm
      · exact digitChar_ne_nl _ hm.symm

theorem nl_not_mem_intRepr (i : Int) : '\n' ∉ intRepr i := by
  unfold intRepr
  by_cases h : i < 0
  · simp only [if_pos h, List.mem_cons]
    rintro (hm | hm)
    · exact absurd hm (by decide)
    · exact nl_not_mem_natDigits _ _ hm
  · simp only [if_neg h]
    exact nl_not_mem_natDigits _ _

theorem nl_not_mem_fracDigits (fuel r d : Nat) : '\n' ∉ fracDigits fuel r d := by
  induction fuel generalizing r with
  | zero => simp [fracDigits]
  | succ fuel ih =>
    cases r with
    | zero => simp [fracDigits]
    | succ r =>
      simp only [fracDigits, List.mem_cons]
      rintro (hm | hm)
      · exact digitChar_ne_nl _ hm.symm
      · exact ih _ hm

theorem nl_not_mem_decRepr (q : ℚ) : '\n' ∉ decRepr q := by
  unfold decRepr
  simp only [List.mem_append]
  rintro ((hm | hm) | hm)
  · revert hm
    split <;> simp
  · exact nl_not_mem_natDigits _ _ hm
  · revert hm
    split
    · decide
    · simp only [List.mem_cons]
      rintro (hm | hm)
      · exact absurd hm (by decide)
      · exact nl_not_mem_fracDigits _ _ _ hm

theorem nl_not_mem_escChar (c : Char) : '\n' ∉ escChar c := by
  unfold escChar
  split_ifs with h1 h2 h3 h4 h5 h6 h7 h8
  · decide
  · decide
  · decide
  · decide
  · decide
  · decide
  · decide
  · intro hm
    simp only [List.mem_cons, List.not_mem_nil, or_false] at hm
    rcases hm with hm | hm | hm | hm | hm | hm
    · exact absurd hm (by decide)
    · exact absurd hm (by decide)
    · exact absurd hm (by decide)
    · exact absurd hm (by decide)
    · exact hexDigitChar_ne_nl _ hm.symm
    · exact hexDigitChar_ne_nl _ hm.symm
  · simp only [List.mem_singleton]
    exact fun he => h3 he.symm

theorem nl_not_mem_escList (s : Str) : '\n' ∉ escList s := by
  induction s with
  | nil => simp [escList]
  | cons c cs ih =>
    simp only [escList, List.mem_append]
    rintro (hm | hm)
    · exact nl_not_mem_escChar c hm
    · exact ih hm

theorem nl_not_mem_escStr (s : Str) : '\n' ∉ escStr s := by
  simp only [escStr, List.mem_cons, List.mem_append, List.mem_singleton]
  rintro (hm | hm | hm)
  · exact absurd hm (by decide)
  · exact nl_not_mem_escList s hm
  · exact absurd hm (by decide)

theorem nl_not_mem_jdumpVal (v : JVal) (s : Str) (h : jdumpVal v = some s) :
    '\n' ∉ s := by
  cases v with
  | vstr s' =>
    simp only [jdumpVal, Option.some.injEq] at h
    exact h ▸ nl_not_mem_escStr s'
  | vint n =>
    simp only [jdumpVal, Option.some.injEq] at h
    exact h ▸ nl_not_mem_intRepr n
  | vrat q =>
    simp only [jdumpVal, Option.some.injEq] at h
    exact h ▸ nl_not_mem_decRepr q
  | vbool b =>
    cases b <;> simp only [jdumpVal, Option.some.injEq] at h <;> subst h <;> decide
  | vnull =>
    simp only [jdumpVal, Option.some.injEq] at h
    subst h
    decide
  | vbad => simp [jdumpVal] at h

theorem entriesOpt_no_nl (d : PyDict) (es : List Str)
    (h : entriesOpt d = some es) : ∀ e ∈ es, '\n' ∉ e := by
  induction d generalizing es with
  | nil =>
    simp only [entriesOpt, Option.some.injEq] at h
    subst h
    simp
  | cons p d ih =>
    obtain ⟨k, v⟩ := p
    simp only [entriesOpt, Option.bind_eq_some, Option.map_eq_some'] at h
    obtain ⟨s, hv, rest, hr, hes⟩ := h
    subst hes
    intro e he
    rcases List.mem_cons.1 he with he | he
    · subst he
      simp only [List.mem_append]
      rintro ((hm | hm) | hm)
      · exact nl_not_mem_escStr k hm
      · exact absurd hm (by decide)
      · exact nl_not_mem_jdumpVal v s hv hm
    · exact ih rest hr e he

theorem nl_not_mem_joinComma (es : List Str) (h : ∀ e ∈ es, '\n' ∉ e) :
    '\n' ∉ joinComma es := by
  induction es with
  | nil => simp [joinComma]
  | cons x xs ih =>
    cases xs with
    | nil => exact h x (List.mem_singleton.2 rfl)
    | cons y ys =>
      simp only [joinComma, List.mem_append]
      rintro ((hm | hm) | hm)
      · exact h x (List.mem_cons_self _ _) hm
      · exact absurd hm (by decide)
      · exact ih (fun e he => h e (List.mem_cons_of_mem _ he)) hm

/-- A successfully serialized record line is a single line: it contains no
newline character (all control characters are escaped by `json.dumps`). -/
theorem jdumps_no_newline (d : PyDict) (line : Str)
    (h : jdumps d = some line) : '\n' ∉ line := by
  unfold jdumps at h
  cases he : entriesOpt d with
  | none => rw [he] at h; exact absurd h (by simp)
  | some es =>
    rw [he] at h
    simp only [Option.map_some', Option.some.injEq] at h
    subst h
    simp only [List.mem_cons, List.mem_append, List.mem_singleton]
    rintro (hm | hm | hm)
    · exact absurd hm (by decide)
    · exact nl_not_mem_joinComma es (entriesOpt_no_nl d es he) hm
    · exact absurd hm (by decide)

/-- `json.dumps` fails (raises `TypeError`) whenever the dict contains a
non-serializable value. -/
theorem entriesOpt_eq_none_of_bad (d : PyDict) (k : Str)
    (h : (k, JVal.vbad) ∈ d) : entriesOpt d = none := by
  induction d with
  | nil => simp at h
  | cons p d ih =>
    obtain ⟨k', v'⟩ := p
    rcases List.mem_cons.1 h with h | h
    · obtain ⟨rfl, rfl⟩ := Prod.mk.inj h.symm
      simp [entriesOpt, jdumpVal]
    · simp only [entriesOpt, ih h]
      cases jdumpVal v' <;> simp

theorem jdumps_eq_none_of_bad (d : PyDict) (k : Str)
    (h : (k, JVal.vbad) ∈ d) : jdumps d = none := by
  unfold jdumps
  rw [entriesOpt_eq_none_of_bad d k h]
  rfl

theorem mem_alKeys_of_mem {α : Type} (d : List (Str × α)) (k : Str) (v : α)
    (h : (k, v) ∈ d) : k ∈ alKeys d :=
  List.mem_map.2 ⟨(k, v), h, rfl⟩

/-! ### Claim C1 -/

/-- Claim C1: for every threat mapping that contains the key `src_ip`, the
record persisted by `log_threat` never contains the literal key `src_ip` and
always contains the key `src_ip_masked` whose value is the masking function
applied to the original `src_ip` value. -/
theorem c1_log_threat_masks_src_ip (category : Str) (threat : PyDict)
    (ts s : Str) (rec : PyDict)
    (hnd : (alKeys threat).Nodup)
    (hs : alGet threat kSrcIp = some (JVal.vstr s))
    (hrec : log_threat category threat ts = some rec) :
    kSrcIp ∉ alKeys rec ∧ alGet rec kSrcIpMasked = some (JVal.vstr (mask_ip s)) := by
  have hbase : (alKeys [(kCategory, JVal.vstr category)]).Nodup := by simp
  have hndt : (alKeys (threat_data_of category threat)).Nodup :=
    nodup_alKeys_alUpdate _ _ hbase
  have hmem : kSrcIp ∈ alKeys threat := by
    rw [mem_alKeys_iff_isSome, hs]
    rfl
  have hget : alGet (threat_data_of category threat) kSrcIp = some (JVal.vstr s) := by
    unfold threat_data_of
    rw [alGet_alUpdate_mem _ _ _ hnd hmem, hs]
  unfold log_threat at hrec
  rw [hget] at hrec
  simp only [Option.some.injEq] at hrec
  subst hrec
  have hnds : (alKeys (alSet (threat_data_of category threat) kSrcIpMasked
      (JVal.vstr (mask_ip s)))).Nodup := nodup_alKeys_alSet _ _ _ hndt
  have hnd2 : (alKeys (alDel (alSet (threat_data_of category threat) kSrcIpMasked
      (JVal.vstr (mask_ip s))) kSrcIp)).Nodup := nodup_alKeys_alDel _ _ hnds
  constructor
  · unfold formatEntry
    rw [mem_alKeys_alUpdate]
    rintro (hm | hm)
    · revert hm
      simp only [alKeys_cons, alKeys_nil]
      decide
    · exact not_mem_alKeys_alDel_self _ _ hnds hm
  · unfold formatEntry
    have hm2 : kSrcIpMasked ∈ alKeys (alDel (alSet (threat_data_of category threat)
        kSrcIpMasked (JVal.vstr (mask_ip s))) kSrcIp) := by
      rw [mem_alKeys_alDel_ne _ _ _ (by decide), mem_alKeys_alSet]
      exact Or.inl rfl
    rw [alGet_alUpdate_mem _ _ _ hnd2 hm2,
        alGet_alDel_ne _ _ _ (by decide), alGet_alSet_self]

/-- The threat mapping of the spec's end-to-end example. -/
def c1threat : PyDict :=
  [(kThreatType, JVal.vstr "PORT_SCAN".toList),
   ("severity".toList, JVal.vstr "HIGH".toList),
   (kSrcIp, JVal.vstr "10.0.0.5".toList),
   ("ports_scanned".toList, JVal.vint 15)]

/-- The record persisted for `c1threat`. -/
def c1rec : PyDict :=
  (log_threat "network".toList c1threat "2025-01-01T00:00:00Z".toList).getD []

theorem c1_log_threat_masks_src_ip_witness :
    kSrcIp ∉ alKeys c1rec ∧
    alGet c1rec kSrcIpMasked = some (JVal.vstr (mask_ip "10.0.0.5".toList)) :=
  c1_log_threat_masks_src_ip "network".toList c1threat "2025-01-01T00:00:00Z".toList
    "10.0.0.5".toList c1rec (by decide) (by decide) (by decide)

/-! ### Claim C2 -/

/-- Claim C2: `mask_ip` is total (a Lean function; it never fails); on a
string made of exactly 4 dot-separated segments `a.b.c.d` it returns the
first three segments joined by `.` followed by `.xxx`, and on any string not
made of exactly 4 dot-separated segments it returns `"unknown"`. -/
theorem c2_mask_ip_shape (a b c d : Str)
    (ha : '.' ∉ a) (hb : '.' ∉ b) (hc : '.' ∉ c) (hd : '.' ∉ d) :
    mask_ip (a ++ '.' :: (b ++ '.' :: (c ++ '.' :: d))) =
      a ++ '.' :: (b ++ '.' :: (c ++ ".xxx".toList))
    ∧ ∀ s : Str, (splitDot s).length ≠ 4 → mask_ip s = "unknown".toList := by
  constructor
  · unfold mask_ip
    rw [splitDot_append_dot _ _ ha, splitDot_append_dot _ _ hb,
        splitDot_append_dot _ _ hc, splitDot_no_dot _ hd]
    simp
  · intro s hlen
    unfold mask_ip
    rcases hsp : splitDot s with _ | ⟨p0, _ | ⟨p1, _ | ⟨p2, _ | ⟨p3, _ | ⟨p4, rest⟩⟩⟩⟩⟩
    · rfl
    · rfl
    · rfl
    · rfl
    · rw [hsp] at hlen
      exact absurd rfl hlen
    · rfl

theorem c2_mask_ip_shape_witness :
    mask_ip ("192".toList ++ '.' :: ("168".toList ++ '.' :: ("1".toList ++
        '.' :: "100".toList))) =
      "192".toList ++ '.' :: ("168".toList ++ '.' :: ("1".toList ++ ".xxx".toList))
    ∧ mask_ip "fe80::1".toList = "unknown".toList :=
  ⟨(c2_mask_ip_shape "192".toList "168".toList "1".toList "100".toList
      (by decide) (by decide) (by decide) (by decide)).1,
   (c2_mask_ip_shape "192".toList "168".toList "1".toList "100".toList
      (by decide) (by decide) (by decide) (by decide)).2
      "fe80::1".toList (by decide)⟩

/-! ### Claim C3 -/

/-- Claim C3: for every level, message and fields mapping, the record
formatter produces a single-line JSON object (no newline in the serialized
line) whose key set is exactly `timestamp`, `level`, `message` plus the keys
of `fields`, and on a key collision with the fixed keys the value from
`fields` takes precedence. -/
theorem c3_format_keys_precedence (ts level msg : Str) (fields : PyDict)
    (hnd : (alKeys fields).Nodup) :
    (∀ k, k ∈ alKeys (formatEntry ts level msg fields) ↔
        (k = kTimestamp ∨ k = kLevel ∨ k = kMessage ∨ k ∈ alKeys fields))
    ∧ (∀ k, k ∈ alKeys fields →
        alGet (formatEntry ts level msg fields) k = alGet fields k)
    ∧ (∀ line, jdumps (formatEntry ts level msg fields) = some line →
        '\n' ∉ line) := by
  refine ⟨?_, ?_, ?_⟩
  · intro k
    unfold formatEntry
    rw [mem_alKeys_alUpdate]
    simp only [alKeys_cons, alKeys_nil, List.mem_cons, List.not_mem_nil, or_false]
    tauto
  · intro k hk
    exact alGet_alUpdate_mem _ _ _ hnd hk
  · intro line h
    exact jdumps_no_newline _ _ h

/-- A fields mapping whose `message` key collides with the fixed key. -/
def c3fields : PyDict :=
  [(kMessage, JVal.vstr "overridden".toList), (kPort, JVal.vint 554)]

theorem c3_format_keys_precedence_witness :
    (kPort ∈ alKeys (formatEntry "t".toList kINFO "m".toList c3fields) ↔
      (kPort = kTimestamp ∨ kPort = kLevel ∨ kPort = kMessage ∨
        kPort ∈ alKeys c3fields))
    ∧ alGet (formatEntry "t".toList kINFO "m".toList c3fields) kMessage =
        alGet c3fields kMessage
    ∧ alGet c3fields kMessage = some (JVal.vstr "overridden".toList) :=
  ⟨(c3_format_keys_precedence "t".toList kINFO "m".toList c3fields (by decide)).1 kPort,
   (c3_format_keys_precedence "t".toList kINFO "m".toList c3fields (by decide)).2.1
     kMessage (by decide),
   by decide⟩

/-! ### Claim C9 -/

/-- A threat mapping that itself carries a `category` key. -/
def c9threat : PyDict :=
  [(kCategory, JVal.vstr "malware".toList),
   (kThreatType, JVal.vstr "INTRUSION".toList)]

/-- The record persisted for `c9threat` under caller category `"network"`. -/
def c9rec : PyDict :=
  (log_threat "network".toList c9threat "2025-01-01T00:00:00Z".toList).getD []

/-- Claim C9 counterexample: `log_threat` is called with caller-supplied
category `"network"`, but the threat mapping's own `"category": "malware"`
entry overrides it in `\x7b"category": category, **threat\x7d`, so the
persisted record's `category` field is NOT the caller-supplied argument. -/
theorem c9_category_counterexample :
    log_threat "network".toList c9threat "2025-01-01T00:00:00Z".toList = some c9rec
    ∧ alGet c9rec kCategory = some (JVal.vstr "malware".toList)
    ∧ alGet c9rec kCategory ≠ some (JVal.vstr "network".toList) := by decide

/-- Claim C9 (amended): the record persisted by `log_threat` has a `category`
field equal to the caller-supplied argument provided the threat mapping does
not itself contain a `category` key (otherwise the threat's value wins), and
contains every threat-mapping key except `src_ip`. -/
theorem c9_log_threat_category_amended (category : Str) (threat : PyDict)
    (ts : Str) (rec : PyDict)
    (hrec : log_threat category threat ts = some rec) :
    (kCategory ∉ alKeys threat → alGet rec kCategory = some (JVal.vstr category))
    ∧ (∀ k, k ∈ alKeys threat → k ≠ kSrcIp → k ∈ alKeys rec) := by
  have hndt : (alKeys (threat_data_of category threat)).Nodup :=
    nodup_alKeys_alUpdate _ _ (by simp)
  have hcat_td : kCategory ∉ alKeys threat →
      alGet (threat_data_of category threat) kCategory = some (JVal.vstr category) := by
    intro hno
    unfold threat_data_of
    rw [alGet_alUpdate_not_mem _ _ _ hno, alGet_cons, if_pos rfl]
  have hmem_td : ∀ k, k ∈ alKeys threat →
      k ∈ alKeys (threat_data_of category threat) := by
    intro k hk
    unfold threat_data_of
    exact (mem_alKeys_alUpdate _ _ _).2 (Or.inr hk)
  have hcatmem : kCategory ∈ alKeys (threat_data_of category threat) := by
    unfold threat_data_of
    exact (mem_alKeys_alUpdate _ _ _).2 (Or.inl (by simp))
  unfold log_threat at hrec
  cases hsrc : alGet (threat_data_of category threat) kSrcIp with
  | none =>
    rw [hsrc] at hrec
    simp only [Option.some.injEq] at hrec
    subst hrec
    constructor
    · intro hno
      unfold formatEntry
      rw [alGet_alUpdate_mem _ _ _ hndt hcatmem, hcat_td hno]
    · intro k hk _
      unfold formatEntry
      exact (mem_alKeys_alUpdate _ _ _).2 (Or.inr (hmem_td k hk))
  | some v =>
    rw [hsrc] at hrec
    cases v with
    | vstr s =>
      simp only [Option.some.injEq] at hrec
      subst hrec
      have hnds : (alKeys (alSet (threat_data_of category threat) kSrcIpMasked
          (JVal.vstr (mask_ip s)))).Nodup := nodup_alKeys_alSet _ _ _ hndt
      have hnd2 : (alKeys (alDel (alSet (threat_data_of category threat)
          kSrcIpMasked (JVal.vstr (mask_ip s))) kSrcIp)).Nodup :=
        nodup_alKeys_alDel _ _ hnds
      constructor
      · intro hno
        have h1 : kCategory ∈ alKeys (alDel (alSet (threat_data_of category threat)
            kSrcIpMasked (JVal.vstr (mask_ip s))) kSrcIp) := by
          rw [mem_alKeys_alDel_ne _ _ _ (by decide), mem_alKeys_alSet]
          exact Or.inr hcatmem
        unfold formatEntry
        rw [alGet_alUpdate_mem _ _ _ hnd2 h1, alGet_alDel_ne _ _ _ (by decide),
            alGet_alSet_ne _ _ _ _ (by decide), hcat_td hno]
      · intro k hk hne
        unfold formatEntry
        refine (mem_alKeys_alUpdate _ _ _).2 (Or.inr ?_)
        rw [mem_alKeys_alDel_ne _ _ _ hne, mem_alKeys_alSet]
        exact Or.inr (hmem_td k hk)
    | vint n => exact absurd hrec (by simp)
    | vrat q => exact absurd hrec (by simp)
    | vbool b => exact absurd hrec (by simp)
    | vnull => exact absurd hrec (by simp)
    | vbad => exact absurd hrec (by simp)

/-- A threat mapping without its own `category` key. -/
def c9threat2 : PyDict :=
  [(kThreatType, JVal.vstr "PORT_SCAN".toList),
   (kSrcIp, JVal.vstr "10.0.0.5".toList)]

/-- The record persisted for `c9threat2`. -/
def c9rec2 : PyDict :=
  (log_threat "network".toList c9threat2 "2025-01-01T00:00:00Z".toList).getD []

theorem c9_log_threat_category_amended_witness :
    alGet c9rec2 kCategory = some (JVal.vstr "network".toList)
    ∧ kThreatType ∈ alKeys c9rec2 :=
  have h := c9_log_threat_category_amended "network".toList c9threat2
    "2025-01-01T00:00:00Z".toList c9rec2 (by decide)
  ⟨h.1 (by decide), h.2 kThreatType (by decide) (by decide)⟩

/-! ### Claim C8 -/

theorem nodup_alKeys_api_fixed (method endpoint src_ip : Str) (status_code : Int)
    (response_time_ms : ℚ) :
    (alKeys [(kCategory, JVal.vstr "api".toList),
             (kMethod, JVal.vstr method),
             (kEndpoint, JVal.vstr endpoint),
             (kSrcIp, JVal.vstr (mask_ip src_ip)),
             (kStatusCode, JVal.vint status_code),
             (kResponseTimeMs, JVal.vrat (pyRound2 response_time_ms))]).Nodup := by
  simp only [alKeys_cons, alKeys_nil]
  decide

/-- Claim C8: for every call to `log_api_request`, the persisted
`response_time_ms` field is the caller-supplied value rounded to two decimal
places, the `status_code` field is the caller-supplied status code, and
every extra keyword field is included in the record.  (`kwargs` cannot
contain the named-parameter keys `response_time_ms` or `status_code`, since
Python rejects duplicate keyword arguments; this is the hypothesis.) -/
theorem c8_log_api_request_fields (method endpoint src_ip : Str)
    (status_code : Int) (response_time_ms : ℚ) (kwargs : PyDict) (ts : Str)
    (hnd : (alKeys kwargs).Nodup)
    (hrt : kResponseTimeMs ∉ alKeys kwargs)
    (hsc : kStatusCode ∉ alKeys kwargs) :
    alGet (log_api_request method endpoint src_ip status_code response_time_ms
        kwargs ts) kResponseTimeMs = some (JVal.vrat (pyRound2 response_time_ms))
    ∧ alGet (log_api_request method endpoint src_ip status_code response_time_ms
        kwargs ts) kStatusCode = some (JVal.vint status_code)
    ∧ ∀ k v, (k, v) ∈ kwargs →
        alGet (log_api_request method endpoint src_ip status_code
          response_time_ms kwargs ts) k = some v := by
  have hndE : (alKeys (api_extra method endpoint src_ip status_code
      response_time_ms kwargs)).Nodup := by
    unfold api_extra
    exact nodup_alKeys_alUpdate _ _ (nodup_alKeys_api_fixed _ _ _ _ _)
  refine ⟨?_, ?_, ?_⟩
  · have hmem : kResponseTimeMs ∈ alKeys (api_extra method endpoint src_ip
        status_code response_time_ms kwargs) := by
      unfold api_extra
      refine (mem_alKeys_alUpdate _ _ _).2 (Or.inl ?_)
      simp only [alKeys_cons, alKeys_nil]
      decide
    unfold log_api_request formatEntry
    rw [alGet_alUpdate_mem _ _ _ hndE hmem]
    unfold api_extra
    rw [alGet_alUpdate_not_mem _ _ _ hrt,
        alGet_cons, if_neg (by decide), alGet_cons, if_neg (by decide),
        alGet_cons, if_neg (by decide), alGet_cons, if_neg (by decide),
        alGet_cons, if_neg (by decide), alGet_cons, if_pos rfl]
  · have hmem : kStatusCode ∈ alKeys (api_extra method endpoint src_ip
        status_code response_time_ms kwargs) := by
      unfold api_extra
      refine (mem_alKeys_alUpdate _ _ _).2 (Or.inl ?_)
      simp only [alKeys_cons, alKeys_nil]
      decide
    unfold log_api_request formatEntry
    rw [alGet_alUpdate_mem _ _ _ hndE hmem]
    unfold api_extra
    rw [alGet_alUpdate_not_mem _ _ _ hsc,
        alGet_cons, if_neg (by decide), alGet_cons, if_neg (by decide),
        alGet_cons, if_neg (by decide), alGet_cons, if_neg (by decide),
        alGet_cons, if_pos rfl]
  · intro k v hkv
    have hk : k ∈ alKeys kwargs := mem_alKeys_of_mem _ _ _ hkv
    have hmem : k ∈ alKeys (api_extra method endpoint src_ip status_code
        response_time_ms kwargs) := by
      unfold api_extra
      exact (mem_alKeys_alUpdate _ _ _).2 (Or.inr hk)
    unfold log_api_request formatEntry
    rw [alGet_alUpdate_mem _ _ _ hndE hmem]
    unfold api_extra
    rw [alGet_alUpdate_mem _ _ _ hnd hk]
    exact alGet_eq_of_mem _ _ _ hnd hkv

/-- The keyword arguments of the spec's end-to-end API example. -/
def c8kwargs : PyDict := [("username".toList, JVal.vstr "admin".toList)]

/-- The record persisted for the spec's end-to-end API example
(`45.333` is the exact rational `45333/1000`). -/
def c8rec : PyDict :=
  log_api_request "POST".toList "/api/login".toList "192.168.1.50".toList
    200 (mkRat 45333 1000) c8kwargs "2025-01-01T00:00:00Z".toList

theorem c8_log_api_request_fields_witness :
    alGet c8rec kResponseTimeMs = some (JVal.vrat (pyRound2 (mkRat 45333 1000)))
    ∧ pyRound2 (mkRat 45333 1000) = mkRat 4533 100
    ∧ alGet c8rec kStatusCode = some (JVal.vint 200)
    ∧ alGet c8rec "username".toList = some (JVal.vstr "admin".toList) :=
  have h := c8_log_api_request_fields "POST".toList "/api/login".toList
    "192.168.1.50".toList 200 (mkRat 45333 1000) c8kwargs
    "2025-01-01T00:00:00Z".toList (by decide) (by decide) (by decide)
  ⟨h.1, by decide, h.2.1, h.2.2 "username".toList (JVal.vstr "admin".toList) (by decide)⟩

/-! ### Claim C4 -/

/-- Keyword arguments holding a value `json.dumps` cannot serialize. -/
def c4kwargs : PyDict := [("camera".toList, JVal.vbad)]

/-- Claim C4 counterexample: a Facade call whose fields contain a
non-serializable value does not raise, but it also writes NO fallback line:
the channel file is left unchanged (the stdlib handler catches the
`TypeError` and `handleError` only prints a traceback to stderr), so no line
with an `"error": "serialization_failed"` marker is produced. -/
theorem c4_no_fallback_line_counterexample :
    log_network_event_emit [] "connection".toList "192.168.1.100".toList
      "192.168.1.10".toList 554 "TCP".toList c4kwargs "t".toList = [] := by decide

/-- Claim C4 (amended): a Facade logging call whose fields contain a value
that cannot be represented in JSON does not raise to the caller (the error
is caught inside the logging handler and reported to stderr), but no
fallback line is written: the record is dropped and the channel file is
returned unchanged. -/
theorem c4_serialization_failure_drops_record (file : List Str)
    (event_type src_ip dst_ip : Str) (port : Int) (protocol : Str)
    (kwargs : PyDict) (ts : Str) (k : Str)
    (hnd : (alKeys kwargs).Nodup) (hbad : (k, JVal.vbad) ∈ kwargs) :
    log_network_event_emit file event_type src_ip dst_ip port protocol kwargs ts
      = file := by
  have hk : k ∈ alKeys kwargs := mem_alKeys_of_mem _ _ _ hbad
  have hkw : alGet kwargs k = some JVal.vbad := alGet_eq_of_mem _ _ _ hnd hbad
  have hndF : (alKeys [(kCategory, JVal.vstr "network".toList),
      (kEventType, JVal.vstr event_type),
      (kSrcIp, JVal.vstr (mask_ip src_ip)),
      (kDstIp, JVal.vstr (mask_ip dst_ip)),
      (kPort, JVal.vint port),
      (kProtocol, JVal.vstr protocol)]).Nodup := by
    simp only [alKeys_cons, alKeys_nil]
    decide
  have hndE : (alKeys (network_extra event_type src_ip dst_ip port protocol
      kwargs)).Nodup := by
    unfold network_extra
    exact nodup_alKeys_alUpdate _ _ hndF
  have hmemE : k ∈ alKeys (network_extra event_type src_ip dst_ip port protocol
      kwargs) := by
    unfold network_extra
    exact (mem_alKeys_alUpdate _ _ _).2 (Or.inr hk)
  have hE : alGet (network_extra event_type src_ip dst_ip port protocol kwargs) k
      = some JVal.vbad := by
    unfold network_extra
    rw [alGet_alUpdate_mem _ _ _ hnd hk, hkw]
  have hR : alGet (log_network_event event_type src_ip dst_ip port protocol
      kwargs ts) k = some JVal.vbad := by
    unfold log_network_event formatEntry
    rw [alGet_alUpdate_mem _ _ _ hndE hmemE, hE]
  have hmemR : (k, JVal.vbad) ∈ log_network_event event_type src_ip dst_ip port
      protocol kwargs ts := alGet_mem _ _ _ hR
  unfold log_network_event_emit
  rw [jdumps_eq_none_of_bad _ _ hmemR]
  rfl

/-- A channel file that already holds one line. -/
def c4file : List Str := ["existing line".toList]

theorem c4_serialization_failure_drops_record_witness :
    log_network_event_emit c4file "connection".toList "192.168.1.100".toList
      "192.168.1.10".toList 554 "TCP".toList c4kwargs "t".toList = c4file :=
  c4_serialization_failure_drops_record c4file "connection".toList
    "192.168.1.100".toList "192.168.1.10".toList 554 "TCP".toList c4kwargs
    "t".toList "camera".toList (by decide) (by decide)

/-! ### Claim C5 — channel creation (`create_logger`, lines 25-43) -/

/-- A `logging.Logger`: its effective level and the ids of its attached
handlers. -/
structure PyLogger where
  level : Str
  handlers : List Nat
deriving DecidableEq

/-- The state touched by `create_logger`: the process-wide logger registry
(`logging.getLogger` keyed by name), a counter yielding fresh handler ids,
and the open file handles `(handler id, filename)` that have not been
closed. -/
structure LogSys where
  registry : List (Str × PyLogger)
  nextHandler : Nat
  openHandles : List (Nat × Str)
deriving DecidableEq

/-- `logging.getLogger(name)`: return the registered logger, creating a
fresh one (level NOTSET, no handlers) on first use. -/
def getLoggerSys (s : LogSys) (name : Str) : LogSys :=
  if (alGet s.registry name).isSome then s
  else { s with registry := s.registry ++ [(name, ⟨"NOTSET".toList, []⟩)] }

/-- `os.path.join(log_dir, f"\x7bname\x7d.jsonl")`. -/
def jsonlName (log_dir name : Str) : Str :=
  log_dir ++ '/' :: (name ++ ".jsonl".toList)

/-- `create_logger(name, log_dir, level)` (lines 25-43): fetch-or-create the
logger, set its level, clear its handlers (the cleared handler's file handle
is NOT closed), construct a fresh `TimedRotatingFileHandler` — which opens
the file immediately — and attach it.  Returns the updated state and the
name identifying the returned logger object in the registry. -/
def create_logger (s : LogSys) (name log_dir level : Str) : LogSys × Str :=
  let s1 := getLoggerSys s name
  let h := s1.nextHandler
  ({ registry := alSet s1.registry name ⟨level, [h]⟩,
     nextHandler := h + 1,
     openHandles := s1.openHandles ++ [(h, jsonlName log_dir name)] }, name)

theorem getLoggerSys_nextHandler (s : LogSys) (name : Str) :
    (getLoggerSys s name).nextHandler = s.nextHandler := by
  unfold getLoggerSys
  split <;> rfl

theorem getLoggerSys_openHandles (s : LogSys) (name : Str) :
    (getLoggerSys s name).openHandles = s.openHandles := by
  unfold getLoggerSys
  split <;> rfl

theorem getLoggerSys_of_isSome (s : LogSys) (name : Str)
    (h : (alGet s.registry name).isSome) : getLoggerSys s name = s := by
  unfold getLoggerSys
  rw [if_pos h]

/-- The empty process state. -/
def c5sys0 : LogSys := ⟨[], 0, []⟩

def c5sys1 : LogSys :=
  (create_logger c5sys0 "events".toList "./data/logs".toList kINFO).1

def c5sys2 : LogSys :=
  (create_logger c5sys1 "events".toList "./data/logs".toList kINFO).1

/-- Claim C5 counterexample: calling `create_logger` twice with the same
name does NOT reuse the underlying sink: the second call builds a fresh
handler (the registry entry changes from handler `0` to handler `1`), and
the first handler's file handle is never closed, leaving two open handles
on the same `events.jsonl` file. -/
theorem c5_duplicate_handles_counterexample :
    c5sys2.openHandles =
      [(0, jsonlName "./data/logs".toList "events".toList),
       (1, jsonlName "./data/logs".toList "events".toList)]
    ∧ alGet c5sys2.registry "events".toList ≠ alGet c5sys1.registry "events".toList := by
  decide

/-- Claim C5 (amended): repeated `create_logger` calls with the same name
return the same logger object (the same registry entry), which always
carries exactly one attached handler — but the handler is a fresh instance
on every call, and the previous call's file handle stays open, so the two
calls leave two open handles on the same file. -/
theorem c5_create_logger_amended (s : LogSys) (name log_dir level : Str) :
    (create_logger s name log_dir level).2
      = (create_logger (create_logger s name log_dir level).1 name log_dir level).2
    ∧ alGet (create_logger s name log_dir level).1.registry name
        = some ⟨level, [s.nextHandler]⟩
    ∧ alGet (create_logger (create_logger s name log_dir level).1 name
          log_dir level).1.registry name
        = some ⟨level, [s.nextHandler + 1]⟩
    ∧ s.nextHandler ≠ s.nextHandler + 1
    ∧ (create_logger (create_logger s name log_dir level).1 name
          log_dir level).1.openHandles
        = s.openHandles ++ [(s.nextHandler, jsonlName log_dir name),
                            (s.nextHandler + 1, jsonlName log_dir name)] := by
  have h1reg : (create_logger s name log_dir level).1.registry
      = alSet (getLoggerSys s name).registry name ⟨level, [s.nextHandler]⟩ := by
    simp only [create_logger]
    rw [getLoggerSys_nextHandler]
  have h1get : alGet (create_logger s name log_dir level).1.registry name
      = some ⟨level, [s.nextHandler]⟩ := by
    rw [h1reg, alGet_alSet_self]
  have h1nh : (create_logger s name log_dir level).1.nextHandler = s.nextHandler + 1 := by
    simp only [create_logger]
    rw [getLoggerSys_nextHandler]
  have h1oh : (create_logger s name log_dir level).1.openHandles
      = s.openHandles ++ [(s.nextHandler, jsonlName log_dir name)] := by
    simp only [create_logger]
    rw [getLoggerSys_openHandles, getLoggerSys_nextHandler]
  have h2fix : getLoggerSys (create_logger s name log_dir level).1 name
      = (create_logger s name log_dir level).1 :=
    getLoggerSys_of_isSome _ _ (by rw [h1get]; rfl)
  refine ⟨rfl, h1get, ?_, by omega, ?_⟩
  · show alGet (alSet (getLoggerSys (create_logger s name log_dir level).1
        name).registry name
        ⟨level, [(getLoggerSys (create_logger s name log_dir level).1
          name).nextHandler]⟩) name = _
    rw [h2fix, h1nh, alGet_alSet_self]
  · show (getLoggerSys (create_logger s name log_dir level).1 name).openHandles
        ++ [((getLoggerSys (create_logger s name log_dir level).1
          name).nextHandler, jsonlName log_dir name)] = _
    rw [h2fix, h1nh, h1oh, List.append_assoc]
    rfl

/-! ### Claim C6 — rotation and retention (`create_logger`, lines 33-39) -/

/-- The rotation state of a `TimedRotatingFileHandler`: the rotation
interval in seconds, `backupCount`, the next scheduled rollover time, and
the rotated (retained) files, oldest first, named by their period stamps. -/
structure TRFHState where
  interval : Nat
  backupCount : Nat
  rolloverAt : Nat
  retained : List Nat
deriving DecidableEq

/-- `TimedRotatingFileHandler(when="D", interval=1, backupCount=14)` created
at time `t0` (lines 33-39): for `when="D"` one interval is `86400 * 1`
seconds and the first rollover is due one interval after creation. -/
def newTimedRotatingFileHandler (t0 : Nat) : TRFHState :=
  { interval := 86400 * 1, backupCount := 14,
    rolloverAt := t0 + 86400 * 1, retained := [] }

/-- `getFilesToDelete`: with fewer than `backupCount` rotated files nothing
is deleted; otherwise all but the `backupCount` newest are deleted.
Returns the kept files (oldest first). -/
def keptFiles (files : List Nat) (bc : Nat) : List Nat :=
  if files.length < bc then files else files.drop (files.length - bc)

/-- `doRollover` at emission time `t`: the current file is renamed with the
elapsed period's stamp (`rolloverAt - interval`) and joins the rotated
files, the oldest files beyond `backupCount` are deleted, and the next
rollover is scheduled one interval after the current time. -/
def doRollover (st : TRFHState) (t : Nat) : TRFHState :=
  { interval := st.interval, backupCount := st.backupCount,
    rolloverAt := t + st.interval,
    retained := keptFiles (st.retained ++ [st.rolloverAt - st.interval])
      st.backupCount }

/-- `BaseRotatingHandler.emit`: `shouldRollover` fires when the emission
time has reached `rolloverAt`; otherwise the state is unchanged. -/
def emitStep (st : TRFHState) (t : Nat) : TRFHState :=
  if st.rolloverAt ≤ t then doRollover st t else st

/-- A sequence of emissions at the given times. -/
def runEmits (st : TRFHState) (ts : List Nat) : TRFHState :=
  ts.foldl emitStep st

theorem keptFiles_length_le (files : List Nat) (bc : Nat) :
    (keptFiles files bc).length ≤ bc := by
  unfold keptFiles
  split
  · omega
  · rw [List.length_drop]
    omega

theorem emitStep_backupCount (st : TRFHState) (t : Nat) :
    (emitStep st t).backupCount = st.backupCount := by
  unfold emitStep doRollover
  split <;> rfl

theorem emitStep_retained_le (st : TRFHState) (t : Nat)
    (h : st.retained.length ≤ st.backupCount) :
    (emitStep st t).retained.length ≤ st.backupCount := by
  unfold emitStep
  split
  · exact keptFiles_length_le _ _
  · exact h

theorem runEmits_retained_le (ts : List Nat) (st : TRFHState)
    (h : st.retained.length ≤ st.backupCount) :
    (runEmits st ts).retained.length ≤ (runEmits st ts).backupCount
    ∧ (runEmits st ts).backupCount = st.backupCount := by
  induction ts generalizing st with
  | nil => exact ⟨h, rfl⟩
  | cons t ts ih =>
    have hbc := emitStep_backupCount st t
    have hstep : (emitStep st t).retained.length ≤ (emitStep st t).backupCount := by
      rw [hbc]
      exact emitStep_retained_le st t h
    have hrest := ih (emitStep st t) hstep
    constructor
    · exact hrest.1
    · show (runEmits (emitStep st t) ts).backupCount = st.backupCount
      rw [hrest.2, hbc]

/-- Claim C6: the handler built by `create_logger` uses a one-day rotation
interval (86400 seconds) and `backupCount = 14`; after any number of
emissions (hence any number of rotations) at most 14 rotated files are
retained; and a rollover fired with the retention bound already full drops
the oldest rotated file. -/
theorem c6_rotation_retention (t0 : Nat) (ts : List Nat)
    (st : TRFHState) (t : Nat)
    (hbc : st.backupCount = 14) (hfull : st.retained.length = 14)
    (hdue : st.rolloverAt ≤ t) :
    (newTimedRotatingFileHandler t0).interval = 86400
    ∧ (newTimedRotatingFileHandler t0).backupCount = 14
    ∧ (runEmits (newTimedRotatingFileHandler t0) ts).retained.length ≤ 14
    ∧ (emitStep st t).retained =
        (st.retained ++ [st.rolloverAt - st.interval]).drop 1 := by
  refine ⟨rfl, rfl, ?_, ?_⟩
  · have h := runEmits_retained_le ts (newTimedRotatingFileHandler t0)
      (by simp [newTimedRotatingFileHandler])
    have hbc14 : (runEmits (newTimedRotatingFileHandler t0) ts).backupCount = 14 := by
      rw [h.2]
      rfl
    rw [← hbc14]
    exact h.1
  · unfold emitStep
    rw [if_pos hdue]
    unfold doRollover keptFiles
    have hlen : (st.retained ++ [st.rolloverAt - st.interval]).length = 15 := by
      simp [hfull]
    rw [if_neg (by rw [hlen, hbc]; omega), hlen, hbc]

/-- A full handler state: 14 retained files already present. -/
def c6full : TRFHState := ⟨86400, 14, 15 * 86400, List.range 14⟩

theorem c6_rotation_retention_witness :
    (newTimedRotatingFileHandler 0).interval = 86400
    ∧ (newTimedRotatingFileHandler 0).backupCount = 14
    ∧ (runEmits (newTimedRotatingFileHandler 0) [86400, 200000]).retained.length ≤ 14
    ∧ (emitStep c6full (15 * 86400)).retained =
        (c6full.retained ++ [c6full.rolloverAt - c6full.interval]).drop 1 :=
  c6_rotation_retention 0 [86400, 200000] c6full (15 * 86400)
    (by decide) (by decide) (by decide)

/-! ### Claim C7 — emission timestamps (`JsonFormatter.format`, line 14) -/

/-- A naive UTC `datetime` value as returned by `datetime.utcnow()`. -/
structure PyDateTime where
  year : Nat
  month : Nat
  day : Nat
  hour : Nat
  minute : Nat
  second : Nat
  microsecond : Nat
deriving DecidableEq

/-- The instant a (valid) datetime denotes, as a single monotone key:
lexicographic in the fields. -/
def dtKey (d : PyDateTime) : Nat :=
  (((((d.year * 13 + d.month) * 32 + d.day) * 24 + d.hour) * 60 + d.minute)
    * 60 + d.second) * 1000000 + d.microsecond

/-- A number zero-padded to width `w`. -/
def padNum (w n : Nat) : Str :=
  List.replicate (w - (natRepr n).length) '0' ++ natRepr n

/-- `datetime.isoformat()`: `YYYY-MM-DDTHH:MM:SS[.ffffff]`, with the
microsecond part omitted when it is zero. -/
def isoformat (d : PyDateTime) : Str :=
  padNum 4 d.year ++ '-' :: (padNum 2 d.month ++ '-' :: (padNum 2 d.day ++
    'T' :: (padNum 2 d.hour ++ ':' :: (padNum 2 d.minute ++ ':' ::
      (padNum 2 d.second ++
        (if d.microsecond = 0 then [] else '.' :: padNum 6 d.microsecond))))))

/-- The timestamp string written by the formatter (line 14):
`datetime.utcnow().isoformat() + "Z"`. -/
def utcTimestamp (d : PyDateTime) : Str := isoformat d ++ ['Z']

/-- One Facade logging call: the level, message and structured fields it
hands to the formatter. -/
structure EmitCall where
  level : Str
  msg : Str
  extra : PyDict
deriving DecidableEq

/-- The records produced by a sequence of Facade calls within one process:
the `i`-th record is formatted with the wall clock read at its emission. -/
def emitRecords (clock : Nat → PyDateTime) (calls : List EmitCall) : List PyDict :=
  (List.range calls.length).map
    (fun i => formatEntry (utcTimestamp (clock i))
      (calls.getD i ⟨[], [], []⟩).level
      (calls.getD i ⟨[], [], []⟩).msg
      (calls.getD i ⟨[], [], []⟩).extra)

/-- A fixed emission instant. -/
def c7dt : PyDateTime := ⟨2025, 1, 1, 12, 0, 0, 0⟩

/-- A call whose fields smuggle in a `timestamp` key. -/
def c7call : EmitCall :=
  ⟨kWARNING, "m".toList, [(kTimestamp, JVal.vstr "1970-01-01T00:00:00Z".toList)]⟩

/-- Claim C7 counterexample: the `timestamp` field is NOT always generated
at emission time — a caller-supplied `timestamp` entry in the fields
overrides the generated one (fields are merged after the fixed keys), so
the persisted timestamp is the caller's value, not the emission-time
clock reading. -/
theorem c7_caller_timestamp_counterexample :
    alGet ((emitRecords (fun _ => c7dt) [c7call]).getD 0 []) kTimestamp
      = some (JVal.vstr "1970-01-01T00:00:00Z".toList)
    ∧ "1970-01-01T00:00:00Z".toList ≠ utcTimestamp c7dt := by decide

/-- Claim C7 (amended): provided no call's fields mapping contains a
`timestamp` key (a caller-supplied `timestamp` would override the generated
one), each record's `timestamp` equals `isoformat` of the wall clock read
at that call's emission with a trailing `Z` — it is generated at emission
time, not caller-supplied — and whenever the wall-clock readings are
non-decreasing, the emission instants of the records in call order are
non-decreasing. -/
theorem c7_timestamps_amended (clock : Nat → PyDateTime) (calls : List EmitCall)
    (hno : ∀ c ∈ calls, kTimestamp ∉ alKeys c.extra) :
    (∀ i, i < calls.length →
      alGet ((emitRecords clock calls).getD i []) kTimestamp
          = some (JVal.vstr (utcTimestamp (clock i)))
      ∧ (utcTimestamp (clock i)).getLast? = some 'Z')
    ∧ ((∀ i j, i ≤ j → dtKey (clock i) ≤ dtKey (clock j)) →
      ((List.range calls.length).map (fun i => dtKey (clock i))).Chain' (· ≤ ·)) := by
  constructor
  · intro i hi
    have hrec : (emitRecords clock calls).getD i []
        = formatEntry (utcTimestamp (clock i))
            (calls.getD i ⟨[], [], []⟩).level
            (calls.getD i ⟨[], [], []⟩).msg
            (calls.getD i ⟨[], [], []⟩).extra := by
      unfold emitRecords
      rw [List.getD_eq_getElem?_getD, List.getElem?_map, List.getElem?_range hi]
      rfl
    constructor
    · rw [hrec]
      unfold formatEntry
      have hmemcall : calls.getD i ⟨[], [], []⟩ ∈ calls := by
        rw [List.getD_eq_getElem?_getD, List.getElem?_eq_getElem hi]
        exact List.getElem_mem _
      rw [alGet_alUpdate_not_mem _ _ _ (hno _ hmemcall), alGet_cons, if_pos rfl]
    · unfold utcTimestamp
      simp
  · intro hmono
    apply List.Pairwise.chain'
    rw [List.pairwise_map]
    exact (List.pairwise_lt_range _).imp (fun h => hmono _ _ (le_of_lt h))

/-- A call with no `timestamp` key among its fields. -/
def c7call2 : EmitCall := ⟨kINFO, "m".toList, [(kPort, JVal.vint 554)]⟩

theorem c7_timestamps_amended_witness :
    alGet ((emitRecords (fun _ => c7dt) [c7call2]).getD 0 []) kTimestamp
      = some (JVal.vstr (utcTimestamp c7dt))
    ∧ (utcTimestamp c7dt).getLast? = some 'Z' :=
  (c7_timestamps_amended (fun _ => c7dt) [c7call2] (by decide)).1 0 (by decide)

/-! ### Claim C10 — `log_threat` does not mutate the caller's mapping -/

/-- A heap of Python dict objects; a reference is an index. -/
abbrev Store := List PyDict

/-- Dereference a dict object. -/
def storeGet (st : Store) (r : Nat) : PyDict := st.getD r []

theorem storeGet_append (st : Store) (d : PyDict) (r : Nat) (h : r < st.length) :
    storeGet (st ++ [d]) r = storeGet st r := by
  unfold storeGet
  rw [List.getD_eq_getElem?_getD, List.getD_eq_getElem?_getD,
    List.getElem?_append_left h]

theorem storeGet_set_ne (st : Store) (i r : Nat) (d : PyDict) (h : i ≠ r) :
    storeGet (st.set i d) r = storeGet st r := by
  unfold storeGet
  rw [List.getD_eq_getElem?_getD, List.getD_eq_getElem?_getD,
    List.getElem?_set_ne h]

/-- `CCTVLogger.log_threat` with the heap made explicit: the caller passes a
reference to its threat dict; line 103 allocates a fresh dict holding
`\x7b"category": category, **threat\x7d`, and lines 106-107 mutate only
that fresh dict. -/
def log_threat_heap (st : Store) (category : Str) (threatRef : Nat)
    (ts : Str) : Store × Option PyDict :=
  let threat := storeGet st threatRef
  let r2 := st.length
  let st1 := st ++ [threat_data_of category threat]
  match alGet (storeGet st1 r2) kSrcIp with
  | none => (st1, some (formatEntry ts kWARNING (threat_msg threat) (storeGet st1 r2)))
  | some (JVal.vstr s) =>
      let st2 := st1.set r2 (alSet (storeGet st1 r2) kSrcIpMasked
        (JVal.vstr (mask_ip s)))
      let st3 := st2.set r2 (alDel (storeGet st2 r2) kSrcIp)
      (st3, some (formatEntry ts kWARNING (threat_msg threat) (storeGet st3 r2)))
  | some _ => (st1, none)

/-- Claim C10: `log_threat` never mutates the caller's threat mapping: the
dict object the caller passed is identical before and after the call — the
`src_ip` removal and `src_ip_masked` insertion happen only on the freshly
allocated internal copy. -/
theorem c10_log_threat_no_mutation (st : Store) (category : Str)
    (threatRef : Nat) (ts : Str) (h : threatRef < st.length) :
    storeGet (log_threat_heap st category threatRef ts).1 threatRef
      = storeGet st threatRef := by
  have hne : st.length ≠ threatRef := (Nat.ne_of_lt h).symm
  simp only [log_threat_heap]
  cases hsrc : alGet (storeGet (st ++ [threat_data_of category
      (storeGet st threatRef)]) st.length) kSrcIp with
  | none =>
    exact storeGet_append st _ threatRef h
  | some v =>
    cases v with
    | vstr s =>
      rw [storeGet_set_ne _ _ _ _ hne, storeGet_set_ne _ _ _ _ hne]
      exact storeGet_append st _ threatRef h
    | vint n => exact storeGet_append st _ threatRef h
    | vrat q => exact storeGet_append st _ threatRef h
    | vbool b => exact storeGet_append st _ threatRef h
    | vnull => exact storeGet_append st _ threatRef h
    | vbad => exact storeGet_append st _ threatRef h

/-- A heap holding the caller's threat dict at reference 0. -/
def c10store : Store :=
  [[(kSrcIp, JVal.vstr "10.0.0.5".toList),
    (kThreatType, JVal.vstr "PORT_SCAN".toList)]]

theorem c10_log_threat_no_mutation_witness :
    storeGet (log_threat_heap c10store "network".toList 0 "t".toList).1 0
      = storeGet c10store 0 :=
  c10_log_threat_no_mutation c10store "network".toList 0 "t".toList (by decide)
